import Mathlib

set_option maxRecDepth 8000

/-!
A shallow embedding of `scraper.py` (static RSS generator for epiotrkow.pl).
Pure string/date processing is translated directly; the HTML parser,
the HTTP client and trafilatura are external collaborators and enter as
oracles (fields of `Page` / `Env`).  Machine strings are Lean `String`s
(Python `len` counts code points, as does `String.length`).
-/

namespace Scraper

/-! ## Character and whitespace utilities

`isWsChar` models the whitespace set used by Python's `str.split()` /
`str.strip()` / `re \s` restricted to the characters that occur in the
scraped texts (ASCII whitespace plus NBSP). -/

def isWsChar (c : Char) : Bool :=
  c = ' ' || c = '\t' || c = '\n' || c = '\r' ||
  c = Char.ofNat 11 || c = Char.ofNat 12 || c = Char.ofNat 160

def isDigitChar (c : Char) : Bool := '0' ≤ c && c ≤ '9'

/-- Python `str.endswith`, on the character level. -/
def strEndsWith (s suffix : String) : Bool := suffix.data.isSuffixOf s.data

/-- The words of a character list, splitting on `isWsChar` (Python `str.split()`). -/
def wordsAux (cs : List Char) (acc : List Char) : List (List Char) :=
  match cs with
  | [] => if acc.isEmpty then [] else [acc.reverse]
  | c :: rest =>
    if isWsChar c then
      if acc.isEmpty then wordsAux rest [] else acc.reverse :: wordsAux rest []
    else wordsAux rest (c :: acc)

/-- Python `" ".join(s.split())`: collapse all whitespace runs to single spaces. -/
def collapse_ws (s : String) : String :=
  String.intercalate " " ((wordsAux s.data []).map fun w => String.mk w)

def lstripChars (cs : List Char) : List Char := cs.dropWhile isWsChar

def rstripChars (cs : List Char) : List Char := (cs.reverse.dropWhile isWsChar).reverse

/-- Python `str.strip()`. -/
def stripWs (s : String) : String := String.mk (rstripChars (lstripChars s.data))

/-- Python `str.rstrip()`. -/
def rstripWs (s : String) : String := String.mk (rstripChars s.data)

/-! ## HTML entity unescaping

`html.unescape` restricted to the named entities relevant to the scraped
site (the full Python table has thousands of entries; texts without `&`
are returned unchanged, as in Python). -/

def entityTable : List (List Char × Char) :=
  [("amp;".data, '&'), ("lt;".data, '<'), ("gt;".data, '>'),
   ("quot;".data, '"'), ("apos;".data, '\''), ("nbsp;".data, Char.ofNat 160),
   ("hellip;".data, '…'), ("oacute;".data, 'ó')]

def findEntity : List (List Char × Char) → List Char → Option (Char × Nat)
  | [], _ => none
  | (pat, ch) :: rest, cs =>
    if pat.isPrefixOf cs then some (ch, pat.length) else findEntity rest cs

/-- Structural worker: every step consumes at least one character, so a
fuel equal to the input length suffices. -/
def unescapeFuel : Nat → List Char → List Char
  | 0, cs => cs
  | _ + 1, [] => []
  | fuel + 1, '&' :: cs =>
    match findEntity entityTable cs with
    | some (ch, n) => ch :: unescapeFuel fuel (cs.drop n)
    | none => '&' :: unescapeFuel fuel cs
  | fuel + 1, c :: cs => c :: unescapeFuel fuel cs

def html_unescape (s : String) : String :=
  String.mk (unescapeFuel s.data.length s.data)

/-! ## Dates

`DateTime` is a naive wall-clock timestamp (what the Python code keeps
after stripping `tzinfo`). -/

structure DateTime where
  year : Int
  month : Nat
  day : Nat
  hour : Nat
  minute : Nat
  second : Nat
deriving DecidableEq, Repr

def isLeap (y : Int) : Bool := (y % 4 = 0 && y % 100 ≠ 0) || y % 400 = 0

def daysInMonth (y : Int) (m : Nat) : Nat :=
  if m = 2 then (if isLeap y then 29 else 28)
  else if m = 4 || m = 6 || m = 9 || m = 11 then 30
  else 31

def dtValid (dt : DateTime) : Bool :=
  1 ≤ dt.year && dt.year ≤ 9999 && 1 ≤ dt.month && dt.month ≤ 12 &&
  1 ≤ dt.day && dt.day ≤ daysInMonth dt.year dt.month &&
  dt.hour < 24 && dt.minute < 60 && dt.second < 60

/-- `datetime(...)` as a total function: `none` models the `ValueError`. -/
def mkDatetime (y : Int) (m d h mi s : Nat) : Option DateTime :=
  let dt : DateTime := ⟨y, m, d, h, mi, s⟩
  if dtValid dt then some dt else none

/-- Days since 1970-01-01 of a civil date (Hinnant's algorithm, floor division). -/
def daysFromCivil (y : Int) (m d : Nat) : Int :=
  let ym : Int := if (m : Int) ≤ 2 then y - 1 else y
  let era : Int := Int.ediv ym 400
  let yoe : Int := ym - era * 400
  let mp : Int := Int.emod ((m : Int) + 9) 12
  let doy : Int := Int.ediv (153 * mp + 2) 5 + (d : Int) - 1
  let doe : Int := yoe * 365 + Int.ediv yoe 4 - Int.ediv yoe 100 + doy
  era * 146097 + doe - 719468

/-- Inverse of `daysFromCivil`. -/
def civilFromDays (z0 : Int) : Int × Nat × Nat :=
  let z := z0 + 719468
  let era := Int.ediv z 146097
  let doe := z - era * 146097
  let yoe := Int.ediv (doe - Int.ediv doe 1460 + Int.ediv doe 36524 - Int.ediv doe 146096) 365
  let y := yoe + era * 400
  let doy := doe - (365 * yoe + Int.ediv yoe 4 - Int.ediv yoe 100)
  let mp := Int.ediv (5 * doy + 2) 153
  let d := doy - Int.ediv (153 * mp + 2) 5 + 1
  let m := if mp < 10 then mp + 3 else mp - 9
  (if m ≤ 2 then y + 1 else y, m.toNat, d.toNat)

def dtToSecs (dt : DateTime) : Int :=
  daysFromCivil dt.year dt.month dt.day * 86400 +
    (dt.hour : Int) * 3600 + (dt.minute : Int) * 60 + (dt.second : Int)

def dtFromSecs (t : Int) : DateTime :=
  let days := Int.ediv t 86400
  let rem := (Int.emod t 86400).toNat
  let c := civilFromDays days
  ⟨c.1, c.2.1, c.2.2, rem / 3600, rem % 3600 / 60, rem % 60⟩

def shiftMinutes (dt : DateTime) (mins : Int) : DateTime :=
  dtFromSecs (dtToSecs dt + mins * 60)

def pad2 (n : Nat) : String := if n < 10 then "0" ++ toString n else toString n

/-- `dt.strftime("%a, %d %b %Y %H:%M:%S +0000")` (C locale). -/
def to_rfc2822 (dt : DateTime) : String :=
  let wd := ["Sun", "Mon", "Tue", "Wed", "Thu", "Fri", "Sat"].getD
      (Int.emod (daysFromCivil dt.year dt.month dt.day + 4) 7).toNat "Sun"
  let mo := ["Jan", "Feb", "Mar", "Apr", "May", "Jun", "Jul", "Aug", "Sep",
      "Oct", "Nov", "Dec"].getD (dt.month - 1) "Jan"
  wd ++ (", " ++ pad2 dt.day ++ " " ++ mo ++ " " ++ toString dt.year ++ " " ++
    pad2 dt.hour ++ ":" ++ pad2 dt.minute ++ ":" ++ pad2 dt.second ++ " +0000")

/-! ## ISO-8601 parsing (`datetime.fromisoformat`)

Restricted to `YYYY-MM-DD[<sep>HH:MM[:SS]][±HH:MM]` (the shapes the site
emits; fractional seconds are not modelled).  The result pairs the naive
wall-clock value with the declared offset in minutes, when one is present. -/

def readDigitsAux : Nat → Nat → List Char → Option (Nat × List Char)
  | 0, acc, cs => some (acc, cs)
  | n + 1, acc, cs =>
    match cs with
    | c :: rest =>
      if isDigitChar c then readDigitsAux n (acc * 10 + (c.toNat - 48)) rest else none
    | [] => none

def expectChar (c : Char) : List Char → Option (List Char)
  | x :: rest => if x = c then some rest else none
  | [] => none

def parseIsoTail (y mo d : Nat) (cs : List Char) : Option (DateTime × Option Int) :=
  match cs with
  | [] => (mkDatetime (Int.ofNat y) mo d 0 0 0).map fun dt => (dt, none)
  | _sep :: rest => do
    let (h, cs1) ← readDigitsAux 2 0 rest
    let cs2 ← expectChar ':' cs1
    let (mi, cs3) ← readDigitsAux 2 0 cs2
    let (s, cs4) ← match cs3 with
      | ':' :: r => do
        let (s, r') ← readDigitsAux 2 0 r
        pure (s, r')
      | _ => pure (0, cs3)
    match cs4 with
    | [] => (mkDatetime (Int.ofNat y) mo d h mi s).map fun dt => (dt, none)
    | sgn :: r1 =>
      if sgn = '+' || sgn = '-' then do
        let (oh, r2) ← readDigitsAux 2 0 r1
        let r3 ← expectChar ':' r2
        let (om, r4) ← readDigitsAux 2 0 r3
        if r4.isEmpty && om < 60 && oh * 60 + om < 1440 then
          let off : Int := (if sgn = '-' then -1 else 1) * (Int.ofNat (oh * 60 + om))
          (mkDatetime (Int.ofNat y) mo d h mi s).map fun dt => (dt, some off)
        else none
      else none

def parse_iso (s : String) : Option (DateTime × Option Int) := do
  let (y, cs1) ← readDigitsAux 4 0 s.data
  let cs2 ← expectChar '-' cs1
  let (mo, cs3) ← readDigitsAux 2 0 cs2
  let cs4 ← expectChar '-' cs3
  let (d, cs5) ← readDigitsAux 2 0 cs4
  parseIsoTail y mo d cs5

/-- Python `s.replace("Z", "+00:00")` (every occurrence). -/
def replaceZ (s : String) : String :=
  String.mk (s.data.foldr
    (fun c acc => if c = 'Z' then '+' :: '0' :: '0' :: ':' :: '0' :: '0' :: acc else c :: acc)
    [])

/-- The date normalisation duplicated at the JSON-LD and the meta-tag call
sites of `scraper.py`:

* `dp.endswith("Z")`: parse after replacing `Z`, then
  `astimezone(tz=None).replace(tzinfo=None)` — i.e. convert to the
  *runner's local* wall clock (`localOff` minutes east of UTC);
* otherwise: parse, then `replace(tzinfo=None)` — i.e. drop the declared
  offset, keeping the source's wall-clock reading.

Parse failures (the `except` arms) are `none`. -/
def normalize_iso (localOff : Int) (iso : String) : Option DateTime :=
  if strEndsWith iso "Z" then
    match parse_iso (replaceZ iso) with
    | some (dt, some off) => some (shiftMinutes dt (localOff - off))
    | some (dt, none) => some dt
    | none => none
  else
    match parse_iso iso with
    | some (dt, _) => some dt
    | none => none

/-! ## JSON values and Python truthiness

JSON numbers are restricted to integers (no claim depends on floats).
A `List (Option Json)` models the page's `ld+json` scripts after
`json.loads`: `none` covers both an empty script tag and a script whose
parse raised (the `except: continue` arm). -/

inductive Json where
  | null : Json
  | bool (b : Bool) : Json
  | str (s : String) : Json
  | num (n : Int) : Json
  | arr (elems : List Json) : Json
  | obj (fields : List (String × Json)) : Json
deriving Repr

def jTruthy : Json → Bool
  | .null => false
  | .bool b => b
  | .str s => s ≠ ""
  | .num n => n ≠ 0
  | .arr xs => !xs.isEmpty
  | .obj fs => !fs.isEmpty

/-- Python `dict.get`. -/
def jGet (fields : List (String × Json)) (key : String) : Option Json :=
  (fields.find? fun p => p.1 = key).map (·.2)

/-- Python `obj.get(k1) or obj.get(k2)` (a falsy first value falls through). -/
def jGetOr (fields : List (String × Json)) (k1 k2 : String) : Option Json :=
  match jGet fields k1 with
  | some v => if jTruthy v then some v else jGet fields k2
  | none => jGet fields k2

mutual

/-- Python `str(x)` on a decoded JSON value (`repr`-style for containers;
string escaping inside `repr` is not modelled). -/
def pyStr : Json → String
  | .null => "None"
  | .bool true => "True"
  | .bool false => "False"
  | .num n => toString n
  | .str s => s
  | .arr xs => "[" ++ pyStrList xs ++ "]"
  | .obj fs => "\x7b" ++ pyStrFields fs ++ "\x7d"

def pyStrList : List Json → String
  | [] => ""
  | [x] => "'" ++ pyStr x ++ "'"
  | x :: xs => "'" ++ pyStr x ++ "', " ++ pyStrList xs

def pyStrFields : List (String × Json) → String
  | [] => ""
  | [(k, v)] => "'" ++ k ++ "': '" ++ pyStr v ++ "'"
  | (k, v) :: fs => "'" ++ k ++ "': '" ++ pyStr v ++ "', " ++ pyStrFields fs

end

/-! ## JSON-LD extraction (`extract_from_jsonld`) -/

def listContainsSub (pat : List Char) : List Char → Bool
  | [] => pat.isEmpty
  | c :: rest => pat.isPrefixOf (c :: rest) || listContainsSub pat rest

/-- `"Article" in typ or "NewsArticle" in typ`. -/
def typeIsArticle (t : String) : Bool :=
  listContainsSub "Article".data t.data || listContainsSub "NewsArticle".data t.data

/-- `typ = obj.get("@type") or obj.get("type")`, flattening a list to its
first string element; `none` when the result is not a string. -/
def objTypeString (fs : List (String × Json)) : Option String :=
  match jGetOr fs "@type" "type" with
  | some (.arr xs) => xs.findSome? fun x => match x with | .str s => some s | _ => none
  | some (.str s) => some s
  | _ => none

/-- One `for obj in candidates` iteration of `extract_from_jsonld`. -/
def jsonldObjStep (localOff : Int) (st : Option DateTime × Option String) (j : Json) :
    Option DateTime × Option String :=
  match j with
  | .obj fs =>
    match objTypeString fs with
    | some t =>
      if typeIsArticle t then
        let st1 :=
          match jGetOr fs "datePublished" "dateCreated" with
          | some dp =>
            if jTruthy dp && st.1.isNone then
              match dp with
              | .str s =>
                (match normalize_iso localOff s with
                 | some d => (some d, st.2)
                 | none => st)
              | _ => st
            else st
          | none => st
        let txt :=
          match jGet fs "articleBody" with
          | some b => if jTruthy b then some b else jGet fs "description"
          | none => jGet fs "description"
        match txt with
        | some v =>
          if jTruthy v && st1.2.isNone then
            let clean := html_unescape (collapse_ws (pyStr v))
            if 40 ≤ clean.length then (st1.1, some clean) else st1
          else st1
        | none => st1
      else st
    | none => st
  | _ => st

/-- `data if isinstance(data, list) else [data]`. -/
def jsonldObjs : Json → List Json
  | .arr xs => xs
  | j => [j]

def jsonldGo (localOff : Int) (st : Option DateTime × Option String) :
    List (Option Json) → Option DateTime × Option String
  | [] => st
  | none :: rest => jsonldGo localOff st rest
  | some j :: rest =>
    let st' := (jsonldObjs j).foldl (jsonldObjStep localOff) st
    if st'.1.isSome || st'.2.isSome then st' else jsonldGo localOff st' rest

/-- `extract_from_jsonld(soup)`: first article-typed structured-data block
yielding a date or a lead wins (`break` after that script). -/
def extract_from_jsonld (localOff : Int) (scripts : List (Option Json)) :
    Option DateTime × Option String :=
  jsonldGo localOff (none, none) scripts

/-! ## Polish visible-text dates (`parse_polish_date`) -/

def PL_MONTHS : List (String × Nat) :=
  [("stycznia", 1), ("lutego", 2), ("marca", 3), ("kwietnia", 4), ("maja", 5),
   ("czerwca", 6), ("lipca", 7), ("sierpnia", 8), ("września", 9), ("wrzesnia", 9),
   ("października", 10), ("pazdziernika", 10), ("listopada", 11), ("grudnia", 12)]

def plMonthLookup (s : String) : Option Nat :=
  (PL_MONTHS.find? fun p => p.1 = s).map (·.2)

/-- The character class `[A-Za-ząćęłńóśźżĄĆĘŁŃÓŚŹŻ]`. -/
def isPlLetter (c : Char) : Bool :=
  ('A' ≤ c && c ≤ 'Z') || ('a' ≤ c && c ≤ 'z') ||
  ['ą', 'ć', 'ę', 'ł', 'ń', 'ó', 'ś', 'ź', 'ż',
   'Ą', 'Ć', 'Ę', 'Ł', 'Ń', 'Ó', 'Ś', 'Ź', 'Ż'].contains c

/-- `str.lower()` restricted to that character class. -/
def plLowerChar (c : Char) : Char :=
  if 'A' ≤ c && c ≤ 'Z' then Char.ofNat (c.toNat + 32)
  else match c with
  | 'Ą' => 'ą' | 'Ć' => 'ć' | 'Ę' => 'ę' | 'Ł' => 'ł' | 'Ń' => 'ń'
  | 'Ó' => 'ó' | 'Ś' => 'ś' | 'Ź' => 'ź' | 'Ż' => 'ż'
  | _ => c

/-- Continuation of the regex `(\d{1,2})\s+([letters]+)\s+(\d{4})` after the
day group: `\s+ letters+ \s+ \d{4}` (greedy munching; the classes are
disjoint so maximal munch agrees with backtracking). -/
def plAfterDay (day : Nat) (cs : List Char) : Option (Nat × String × Nat) :=
  match cs with
  | [] => none
  | c :: rest =>
    if isWsChar c then
      let cs1 := rest.dropWhile isWsChar
      let ls := cs1.takeWhile isPlLetter
      if ls.isEmpty then none
      else
        match cs1.drop ls.length with
        | [] => none
        | d :: rest2 =>
          if isWsChar d then
            match readDigitsAux 4 0 (rest2.dropWhile isWsChar) with
            | some (y, _) => some (day, String.mk ls, y)
            | none => none
          else none
    else none

/-- Match attempt at one position: `\d{1,2}` greedy (two digits first, one
digit on backtrack). -/
def plMatchAt : List Char → Option (Nat × String × Nat)
  | [] => none
  | c1 :: rest1 =>
    if isDigitChar c1 then
      match rest1 with
      | c2 :: rest2 =>
        if isDigitChar c2 then
          (plAfterDay ((c1.toNat - 48) * 10 + (c2.toNat - 48)) rest2) <|>
            plAfterDay (c1.toNat - 48) rest1
        else plAfterDay (c1.toNat - 48) rest1
      | [] => none
    else none

/-- `re.search`: leftmost match position wins. -/
def plSearchAux : List Char → Option (Nat × String × Nat)
  | [] => none
  | c :: rest => plMatchAt (c :: rest) <|> plSearchAux rest

/-- `parse_polish_date` up to the final `to_rfc2822` formatting: the
matched day/month-name/year with the hard-coded `12:00:00` time; `none`
on no match, unknown month name, or an invalid calendar date. -/
def parse_polish_date_dt (text : String) : Option DateTime :=
  if text = "" then none
  else
    match plSearchAux text.data with
    | none => none
    | some (day, monthName, year) =>
      match plMonthLookup (String.mk (monthName.data.map plLowerChar)) with
      | none => none
      | some month => mkDatetime (Int.ofNat year) month day 12 0 0

def parse_polish_date (text : String) : Option String :=
  (parse_polish_date_dt text).map to_rfc2822

/-! ## Configuration constants -/

def SITE : String := "https://epiotrkow.pl"
def FEED_TITLE : String := "epiotrkow.pl – Wydarzenia v3"
def FEED_LINK : String := SITE ++ "/news/"
def FEED_DESC : String := "Automatyczny RSS z list newsów epiotrkow.pl."
def MAX_ITEMS : Nat := 500
def DETAIL_LIMIT : Nat := 500
def LEAD_MAX_CHARS : Nat := 1000
def LEAD_MIN_GOOD : Nat := 250

/-! ## Pages and the environment

A `Page` is the abstraction of one fetched-and-parsed document (the
BeautifulSoup queries the cascade performs are pre-evaluated fields; all
texts are as delivered by `get_text(" ", strip=True)`).

* `jsonld` — the `ld+json` scripts after `json.loads` (see `Json`);
* `ampRel` — `href` of the `link rel=amphtml` tag, if present;
* `metaDateTags` — the present tags of the meta chain
  `article:published_time` (property) / `article:published_time` (name) /
  `datePublished` (itemprop) / `date` (name), in that priority order,
  each with its `content` attribute (`none` = attribute absent);
* `newsDate` / `timeText` — text of `.news-date` / the first `time` tag;
* `selParas` — the paragraph texts per `LEAD_SELECTORS` entry, in selector
  order; `mainParas` and `allParas` are `main p` and `find_all("p")`. -/

structure Page where
  jsonld : List (Option Json)
  ampRel : Option String
  metaDateTags : List (Option String)
  newsDate : Option String
  timeText : Option String
  selParas : List (List String)
  mainParas : List String
  allParas : List String

/-- Network and trafilatura oracles for one run. `net url k` is the
response the origin would give to the `k`-th GET of `url`; the code
performs exactly one attempt per fetch (see `http_get`).  `traf` is the
combined `trafilatura.fetch_url` + `trafilatura.extract` result (`none`
covers download failure, empty extraction, and raised exceptions). -/
structure Env where
  localOff : Int
  net : String → Nat → Except String Page
  traf : String → Option String

/-- `requests.get(...)` + `raise_for_status()`: a single attempt (the
first element of the per-attempt response sequence); no retry loop exists
in the code. -/
def http_get (responses : Nat → Except String Page) : Except String Page :=
  responses 0

def Env.fetch (env : Env) (u : String) : Except String Page :=
  http_get (env.net u)

/-! ## Lead building (`build_lead_from_paras`) -/

/-- Selector cascade: the first `LEAD_SELECTORS` entry with any matches
wins, else `soup.select("main p") or soup.find_all("p")`. -/
def choose_paras (p : Page) : List String :=
  match p.selParas.find? (fun l => !l.isEmpty) with
  | some ps => ps
  | none => if !p.mainParas.isEmpty then p.mainParas else p.allParas

/-- The paragraph-accumulation loop: unescape, skip empty/short (< 30)
texts, stop once the running total (text lengths plus one separator each)
reaches `maxChars`. -/
def leadChunksAux (maxChars : Nat) : List String → Nat → List String
  | [], _ => []
  | p :: rest, total =>
    let t := html_unescape p
    if t = "" || t.length < 30 then leadChunksAux maxChars rest total
    else if maxChars ≤ total + t.length + 1 then [t]
    else t :: leadChunksAux maxChars rest (total + t.length + 1)

/-- The truncation idiom shared by `build_lead_from_paras`,
`trafilatura_lead` (and duplicated verbatim in the source):
`cut = lead[:max]; cut = cut.rsplit(" ", 1)[0] if " " in cut else cut;
lead = cut.rstrip() + "…"`. -/
def beforeLastSpaceChars (cs : List Char) : List Char :=
  ((cs.reverse.dropWhile fun c => c ≠ ' ').drop 1).reverse

def truncate_with_ellipsis (lead : String) (maxChars : Nat) : String :=
  if maxChars < lead.length then
    let cut := lead.data.take maxChars
    String.mk (rstripChars (if ' ' ∈ cut then beforeLastSpaceChars cut else cut)) ++ "…"
  else lead

/-- The joined, pre-truncation lead text. -/
def lead_raw (p : Page) (maxChars : Nat) : String :=
  String.intercalate " " (leadChunksAux maxChars (choose_paras p) 0)

def build_lead_from_paras (p : Page) (maxChars : Nat) : Option String :=
  if (leadChunksAux maxChars (choose_paras p) 0).isEmpty then none
  else some (truncate_with_ellipsis (lead_raw p maxChars) maxChars)

/-- `trafilatura_lead`: external extraction (`env.traf`), then the same
collapse/unescape/truncate post-processing, rejected under 120 chars. -/
def trafilatura_lead (env : Env) (url : String) (maxChars : Nat) : Option String :=
  match env.traf url with
  | none => none
  | some text =>
    let t := html_unescape (collapse_ws text)
    let t := truncate_with_ellipsis t maxChars
    if 120 ≤ t.length then some t else none

/-! ## URL variants -/

def rstripSlash (s : String) : String :=
  String.mk (s.data.reverse.dropWhile (fun c => c = '/')).reverse

/-- `try_amp_variants`: the three query-suffixed candidates plus the
`/amp` path candidate.  The Python builds these in a `set` (unspecified
iteration order); the article URLs carry no query string, so
`with_query` is plain suffixing, and we fix the insertion order. -/
def try_amp_variants (url : String) : List String :=
  ([url ++ "?amp=", url ++ "?amp=1", url ++ "?output=amp"] ++
    (if strEndsWith url "/amp" then [] else [rstripSlash url ++ "/amp"])).filter
    fun c => c ≠ url

/-- `try_gallery_variant`: `/news/slug,ID` → `/galeria/slug,ID`
(split at the first `/news/`). -/
def splitFirstNews (cs : List Char) (acc : List Char) : Option (List Char × List Char) :=
  match cs with
  | [] => none
  | c :: rest =>
    if "/news/".data.isPrefixOf (c :: rest) then
      some (acc.reverse, (c :: rest).drop 6)
    else splitFirstNews rest (c :: acc)

def try_gallery_variant (url : String) : Option String :=
  if url.data.contains ',' then
    match splitFirstNews url.data [] with
    | some (before, after) => some (String.mk before ++ "/galeria/" ++ String.mk after)
    | none => none
  else none

/-- `urljoin(url, href)` restricted to the reference shapes the cascade
meets: absolute URLs pass through, root-relative ones resolve against the
site origin, the rest against the base's directory. -/
def urljoin_approx (base rel : String) : String :=
  if "http://".data.isPrefixOf rel.data || "https://".data.isPrefixOf rel.data then rel
  else if "/".data.isPrefixOf rel.data then SITE ++ rel
  else String.mk (base.data.reverse.dropWhile (fun c => c ≠ '/')).reverse ++ rel

/-! ## The article cascade (`fetch_article_details`)

The guards `not lead or len(lead) < LEAD_MIN_GOOD` appear verbatim at the
AMP, paragraph, gallery and trafilatura stages; `leadBelowGood` is their
common form (a `""` lead is both falsy and shorter than the threshold). -/

def leadBelowGood : Option String → Bool
  | none => true
  | some s => s.length < LEAD_MIN_GOOD

/-- The AMP loop break: `if lead and pub_rfc and len(lead) >= LEAD_MIN_GOOD`. -/
def ampBreak (st : Option DateTime × Option String) : Bool :=
  st.1.isSome && !leadBelowGood st.2

/-- `# 2) AMP`: iterate the candidate URLs; a failed fetch is `continue`;
the date is only taken when still unset, the lead only when below the
quality gate and the AMP lead itself clears it. -/
def ampLoop (env : Env) : List String → Option DateTime × Option String →
    Option DateTime × Option String
  | [], st => st
  | u :: rest, st =>
    if ampBreak st then st
    else
      match env.fetch u with
      | .error _ => ampLoop env rest st
      | .ok soup =>
        let pub' :=
          if st.1.isNone then
            match (extract_from_jsonld env.localOff soup.jsonld).1 with
            | some p => some p
            | none => st.1
          else st.1
        let lead' :=
          if leadBelowGood st.2 then
            match build_lead_from_paras soup LEAD_MAX_CHARS with
            | some al => if LEAD_MIN_GOOD ≤ al.length then some al else st.2
            | none => st.2
          else st.2
        ampLoop env rest (pub', lead')

/-- The AMP candidate list: the `rel=amphtml` hint (if truthy) resolved
against the article URL, then the heuristic variants. -/
def amp_candidates (url : String) (soup : Page) : List String :=
  (match soup.ampRel with
   | some h => if h ≠ "" then [urljoin_approx url h] else []
   | none => []) ++ try_amp_variants url

/-- `# 3)` (date half): the meta-tag chain, then the visible
`.news-date` / `time` text through `parse_polish_date` — each only while
the date is still unset.  The chain picks the first *present* tag; a
present tag with a falsy `content` ends the meta attempt. -/
def stage_date_fallbacks (env : Env) (soup : Page) (pub : Option DateTime) :
    Option DateTime :=
  if pub.isSome then pub
  else
    let metaPub :=
      match soup.metaDateTags.head? with
      | some (some c) => if c = "" then none else normalize_iso env.localOff (stripWs c)
      | _ => none
    match metaPub with
    | some d => some d
    | none =>
      match soup.newsDate <|> soup.timeText with
      | some t => parse_polish_date_dt t
      | none => none

/-- `# 3)` (lead half): in-page paragraphs, gated at `LEAD_MIN_GOOD`. -/
def stage_lead_paras (soup : Page) (lead : Option String) : Option String :=
  if leadBelowGood lead then
    match build_lead_from_paras soup LEAD_MAX_CHARS with
    | some b => if LEAD_MIN_GOOD ≤ b.length then some b else lead
    | none => lead
  else lead

/-- `# 4) GALERIA`: entered only while the lead is below the gate; the
whole block is one `try`, so a failed fetch changes nothing. -/
def stage_gallery (env : Env) (url : String) (pub : Option DateTime)
    (lead : Option String) : Option DateTime × Option String :=
  if leadBelowGood lead then
    match try_gallery_variant url with
    | none => (pub, lead)
    | some gal =>
      match env.fetch gal with
      | .error _ => (pub, lead)
      | .ok g =>
        let p :=
          if pub.isNone then
            match (extract_from_jsonld env.localOff g.jsonld).1 with
            | some x => some x
            | none => pub
          else pub
        let l :=
          match build_lead_from_paras g LEAD_MAX_CHARS with
          | some b => if LEAD_MIN_GOOD ≤ b.length then some b else lead
          | none => lead
        (p, l)
  else (pub, lead)

/-- `# 5) TRAFILATURA`: last-resort lead, same gate. -/
def stage_traf (env : Env) (url : String) (lead : Option String) : Option String :=
  if leadBelowGood lead then
    match trafilatura_lead env url LEAD_MAX_CHARS with
    | some t => if LEAD_MIN_GOOD ≤ t.length then some t else lead
    | none => lead
  else lead

/-- `# czyszczenie`: collapse whitespace; reject a short lead (< 80)
without terminal punctuation `[.!?…]`. -/
def endsPunctuation (s : String) : Bool :=
  match s.data.reverse with
  | c :: _ => c = '.' || c = '!' || c = '?' || c = '…'
  | [] => false

def stage_cleanup : Option String → Option String
  | none => none
  | some l =>
    let c := collapse_ws l
    if c.length < 80 && !endsPunctuation c then none else some c

/-- Steps `# 1)` and `# 2)`: the JSON-LD results fed through the AMP loop. -/
def fad_after_amp (env : Env) (url : String) (soup : Page) :
    Option DateTime × Option String :=
  ampLoop env (amp_candidates url soup) (extract_from_jsonld env.localOff soup.jsonld)

/-- The body of `fetch_article_details` after the base page was fetched. -/
def fad_core (env : Env) (url : String) (soup : Page) :
    Option DateTime × Option String :=
  let s1 := fad_after_amp env url soup
  let s3 := stage_gallery env url (stage_date_fallbacks env soup s1.1)
      (stage_lead_paras soup s1.2)
  (s3.1, stage_cleanup (stage_traf env url s3.2))

/-- `fetch_article_details(url)`, with the Python exception potential made
explicit in the type: a raised, unhandled exception would be `.error`.
Every risky operation is wrapped by the source (`except` arms return
`(None, None)`, `continue`, or `pass`), which the theorems below verify. -/
def fetch_article_details (env : Env) (url : String) :
    Except String (Option DateTime × Option String) :=
  match env.fetch url with
  | .error _ => .ok (none, none)
  | .ok soup => .ok (fad_core env url soup)

/-! ## Listing pages (`fetch_items`, link half)

An `Anchor` is one element of the concatenated
`ARTICLE_LINK_SELECTORS` query results, with the queries the title/image
resolution performs pre-evaluated:

* `tnTitle` / `h5TnTitle` — text of `a.select_one(".tn-title")` /
  `a.select_one("h5.tn-title")` (`none` = element absent);
* `text` — `a.get_text(" ", strip=True)`;
* `nextTnTitle` — text of `a.find_next(class_="tn-title")`;
* `imgAlt` — `alt` of an `img` inside the anchor (`none` = no such image
  or no `alt`). -/

structure Anchor where
  href : Option String
  tnTitle : Option String
  h5TnTitle : Option String
  text : String
  nextTnTitle : Option String
  imgAlt : Option String

/-- The first dedup loop: skip missing/empty and already-seen hrefs
(`seen` is the mutable `seen_href` set). -/
def dedup_hrefs : List Anchor → List String → List Anchor
  | [], _ => []
  | a :: rest, seen =>
    match a.href with
    | none => dedup_hrefs rest seen
    | some h =>
      if h = "" ∨ h ∈ seen then dedup_hrefs rest seen
      else a :: dedup_hrefs rest (h :: seen)

/-- `re.match` treats `$` as end-of-string or just before one final
newline. -/
def reDollarTrim (cs : List Char) : List Char :=
  match cs.reverse with
  | '\n' :: r => r.reverse
  | _ => cs

/-- The tail of `ID_LINK` after the `/news/` prefix: `.+,\d+$` — a
nonempty middle without newlines, a comma, then one-or-more digits at the
end.  The comma matched is forced to be the one just before the maximal
digit suffix. -/
def idTailOk (rest : List Char) : Bool :=
  let rev := (reDollarTrim rest).reverse
  let ds := rev.takeWhile isDigitChar
  !ds.isEmpty &&
    (match rev.dropWhile isDigitChar with
     | ',' :: mid => !mid.isEmpty && !mid.contains '\n'
     | _ => false)

/-- `ID_LINK = re.compile(r"^/news/.+,\d+$")`, as `ID_LINK.match(href)`. -/
def idLinkMatch (href : String) : Bool :=
  "/news/".data.isPrefixOf href.data && idTailOk (href.data.drop 6)

/-- `urljoin(SITE, href)` for the root-relative hrefs `ID_LINK` admits
(`SITE` has no path, so resolution is concatenation). -/
def urljoin_site (href : String) : String := SITE ++ href

/-- The link half of the per-page loop: dedup by href (first seen wins,
order preserved), keep `ID_LINK` matches, absolutise. -/
def extract_links (anchors : List Anchor) : List String :=
  (dedup_hrefs anchors []).filterMap fun a =>
    match a.href with
    | some h => if idLinkMatch h then some (urljoin_site h) else none
    | none => none

/-- The final `if not title: title = "Bez tytułu"` step. -/
def title_or_default (t : String) : String := if t = "" then "Bez tytułu" else t

/-- The title-resolution chain of the listing loop: card title element →
anchor text → next `.tn-title` element → image `alt` (stripped) →
the constant `"Bez tytułu"`. -/
def resolve_title (a : Anchor) : String :=
  let t1 := match a.tnTitle with
    | some t => t
    | none => match a.h5TnTitle with | some t => t | none => ""
  let t2 := if t1 = "" then a.text else t1
  let t3 := if t2 = "" then (match a.nextTnTitle with | some t => t | none => "") else t2
  let t4 := if t3 = "" then
      (match a.imgAlt with
       | some alt => if alt ≠ "" then stripWs alt else ""
       | none => "")
    else t3
  title_or_default t4

/-! ## Feed assembly (`build_rss`)

`Item` is the per-article dict.  The Python stores `pubDate` as the
already-formatted RFC-2822 string; the embedding keeps the instant and
applies `to_rfc2822` at render time, which produces the same feed text. -/

structure Item where
  title : String
  link : String
  guid : String
  image : Option String
  mime : Option String
  pubDate : Option DateTime
  lead : Option String

def imgTruthy : Option String → Bool
  | some s => s ≠ ""
  | none => false

/-- `html.unescape(it.get("lead") or it["title"])`. -/
def item_lead_text (it : Item) : String :=
  html_unescape (match it.lead with
    | some l => if l ≠ "" then l else it.title
    | none => it.title)

def item_img_html (it : Item) : String :=
  if imgTruthy it.image then
    "<p><img src=\"" ++ it.image.getD "" ++ "\" alt=\"miniatura\"/></p>"
  else ""

def item_desc_html (it : Item) : String :=
  item_img_html it ++ "<p>" ++ item_lead_text it ++ "</p>"

def item_enclosure (it : Item) : String :=
  if imgTruthy it.image then
    "\n  <enclosure url=\"" ++ it.image.getD "" ++ "\" type=\"" ++
      it.mime.getD "image/*" ++ "\" />"
  else ""

def item_media (it : Item) : String :=
  if imgTruthy it.image then
    "\n  <media:content url=\"" ++ it.image.getD "" ++ "\" medium=\"image\" />"
  else ""

def item_media_thumb (it : Item) : String :=
  if imgTruthy it.image then "\n  <media:thumbnail url=\"" ++ it.image.getD "" ++ "\" />"
  else ""

/-- `pubdate = it.get("pubDate", build_date)`. -/
def item_pubdate (bd : DateTime) (it : Item) : String :=
  to_rfc2822 (it.pubDate.getD bd)

def item_xml_head (it : Item) : String :=
  "\n<item>\n  <title><![CDATA[" ++ it.title ++ "]]></title>\n  <link>" ++
    it.link ++ "</link>\n  <guid isPermaLink=\"false\">" ++ it.guid ++
    "</guid>\n  <pubDate>"

def item_xml_tail (it : Item) : String :=
  "</pubDate>\n  <description><![CDATA[" ++ item_desc_html it ++
    "]]></description>" ++ item_enclosure it ++ item_media it ++
    item_media_thumb it ++ "\n</item>"

/-- One `<item>` block of the feed body. -/
def item_xml (bd : DateTime) (it : Item) : String :=
  item_xml_head it ++ item_pubdate bd it ++ item_xml_tail it

def rss_head (bd : DateTime) : String :=
  "<?xml version=\"1.0\" encoding=\"UTF-8\"?>\n<rss version=\"2.0\"\n     xmlns:media=\"http://search.yahoo.com/mrss/\">\n<channel>\n<title>" ++
    FEED_TITLE ++ "</title>\n<link>" ++ FEED_LINK ++ "</link>\n<description>" ++
    FEED_DESC ++ "</description>\n<lastBuildDate>" ++ to_rfc2822 bd ++
    "</lastBuildDate>\n<ttl>60</ttl>\n"

/-- The `for it in items: body.append(...)` loop followed by `"".join`. -/
def rss_body (bd : DateTime) : List Item → String
  | [] => ""
  | it :: rest => item_xml bd it ++ rss_body bd rest

def rss_tail : String := "\n</channel>\n</rss>\n"

def build_rss (bd : DateTime) (items : List Item) : String :=
  rss_head bd ++ rss_body bd items ++ rss_tail

/-! ## Definitions modelled from the spec (for refinement comparisons) -/

/-- Modelled from the spec: "Retries up to a small fixed count (e.g. 3) on
transport error or non-200 status or a too-short/empty body, with
increasing backoff between attempts" — consume per-attempt responses until
one succeeds or the budget is exhausted (backoff timing is not modelled). -/
def spec_try_attempts (responses : Nat → Except String Page) (k : Nat) :
    Nat → Except String Page
  | 0 => .error "retries exhausted"
  | n + 1 =>
    match responses k with
    | .ok p => .ok p
    | .error _ => spec_try_attempts responses (k + 1) n

def spec_fetch_with_retry (responses : Nat → Except String Page) : Except String Page :=
  spec_try_attempts responses 0 3

/-- The sort key the spec prescribes: `publishedAt`, with the stated
"unknown defaults to feed-build time" policy. -/
def dateKey (bd : DateTime) (it : Item) : Int := dtToSecs (it.pubDate.getD bd)

def spec_insert_desc (bd : DateTime) (it : Item) : List Item → List Item
  | [] => [it]
  | x :: xs =>
    if dateKey bd x ≤ dateKey bd it then it :: x :: xs
    else x :: spec_insert_desc bd it xs

/-- Modelled from the spec: "Sort by `publishedAt` descending (most recent
first) — stable sort; ties keep prior relative order" (stable insertion
sort: an earlier item is kept in front of later items with equal keys). -/
def spec_sort_by_date_desc (bd : DateTime) : List Item → List Item
  | [] => []
  | x :: xs => spec_insert_desc bd x (spec_sort_by_date_desc bd xs)

/-- Modelled from the spec: "a slug derived from the URL path", "replace
path separators/hyphens with spaces". -/
def spec_slug_title (path : String) : String :=
  String.mk (path.data.map fun c => if c = '/' || c = '-' then ' ' else c)

/-! ## Claim C10 -/

/-- Claim C10: whenever the Polish labeled-text date parser succeeds, the
resulting timestamp's time of day is exactly 12:00:00 — it never carries
the article's actual publication time. -/
theorem c10_polish_date_noon (t : String) (dt : DateTime)
    (h : parse_polish_date_dt t = some dt) :
    dt.hour = 12 ∧ dt.minute = 0 ∧ dt.second = 0 := by
  unfold parse_polish_date_dt at h
  split at h
  · exact absurd h (by simp)
  · split at h
    · exact absurd h (by simp)
    · split at h
      · exact absurd h (by simp)
      · simp only [mkDatetime] at h
        split at h
        · cases h
          exact ⟨rfl, rfl, rfl⟩
        · exact absurd h (by simp)

/-- Claim C10, witness: a concrete visible-text date resolves to noon. -/
theorem c10_witness :
    parse_polish_date_dt "5 maja 2024" = some ⟨2024, 5, 5, 12, 0, 0⟩ ∧
    (⟨2024, 5, 5, 12, 0, 0⟩ : DateTime).hour = 12 ∧
    (⟨2024, 5, 5, 12, 0, 0⟩ : DateTime).minute = 0 ∧
    (⟨2024, 5, 5, 12, 0, 0⟩ : DateTime).second = 0 :=
  ⟨rfl, c10_polish_date_noon "5 maja 2024" ⟨2024, 5, 5, 12, 0, 0⟩ rfl⟩

/-! ## Claim C8 -/

/-- Claim C8, counterexample: the source timestamp
`2024-05-01T10:00:00+02:00` from the claim's own example is *not*
converted to the UTC instant 08:00: the offset is dropped
(`replace(tzinfo=None)`) and the wall-clock 10:00 is formatted with the
`+0000` suffix, both at the shared normaliser and through the JSON-LD
extractor. -/
theorem c8_counterexample :
    normalize_iso 0 "2024-05-01T10:00:00+02:00" = some ⟨2024, 5, 1, 10, 0, 0⟩ ∧
    normalize_iso 0 "2024-05-01T10:00:00+02:00" ≠ some ⟨2024, 5, 1, 8, 0, 0⟩ ∧
    to_rfc2822 ⟨2024, 5, 1, 10, 0, 0⟩ = "Wed, 01 May 2024 10:00:00 +0000" ∧
    (extract_from_jsonld 0 [some (.obj [("@type", Json.str "NewsArticle"),
        ("datePublished", Json.str "2024-05-01T10:00:00+02:00")])]).1 =
      some ⟨2024, 5, 1, 10, 0, 0⟩ := by
  refine ⟨rfl, ?_, rfl, rfl⟩
  decide

/-- Claim C8 (amended): a parsed timestamp with an explicit non-`Z`
offset keeps its wall-clock reading — the declared offset is discarded,
not applied — before the `+0000`-suffixed formatting. -/
theorem c8_offset_dropped (loc : Int) (s : String) (dt : DateTime) (off : Int)
    (hp : parse_iso s = some (dt, some off)) (hz : strEndsWith s "Z" = false) :
    normalize_iso loc s = some dt := by
  simp [normalize_iso, hz, hp]

/-- Claim C8, witness for the amended statement. -/
theorem c8_witness :
    parse_iso "2024-05-01T10:00:00+02:00" = some (⟨2024, 5, 1, 10, 0, 0⟩, some 120) ∧
    strEndsWith "2024-05-01T10:00:00+02:00" "Z" = false ∧
    normalize_iso 0 "2024-05-01T10:00:00+02:00" = some ⟨2024, 5, 1, 10, 0, 0⟩ :=
  ⟨rfl, rfl, c8_offset_dropped 0 "2024-05-01T10:00:00+02:00" ⟨2024, 5, 1, 10, 0, 0⟩
    120 rfl rfl⟩

/-! ## Claim C7 -/

def page7 : Page := ⟨[], none, [], none, none, [], [], []⟩

/-- A network that times out on the first attempt and would serve the page
on any retry. -/
def net7 : Nat → Except String Page := fun k =>
  if k = 0 then .error "timeout" else .ok page7

def env7 : Env := ⟨0, fun _ => net7, fun _ => none⟩

/-- Claim C7, counterexample: the fetch helper makes exactly one attempt —
on a network whose first response is a transport error and whose second
would succeed, it fails, while the retrying fetch the spec describes
(3 attempts) succeeds. -/
theorem c7_counterexample :
    http_get net7 = .error "timeout" ∧
    spec_fetch_with_retry net7 = .ok page7 :=
  ⟨rfl, rfl⟩

/-- Claim C7 (amended): each fetch is a single attempt; one failed
attempt on the article URL makes the caller skip the URL (returning a
fully-defaulted record), never consulting any further attempt. -/
theorem c7_single_attempt (env : Env) (url : String) (e : String)
    (h : env.net url 0 = .error e) :
    fetch_article_details env url = .ok (none, none) := by
  unfold fetch_article_details Env.fetch http_get
  rw [h]

/-- Claim C7, witness: `env7`'s first attempt fails (a retry would
succeed), and the article is skipped. -/
theorem c7_witness :
    env7.net "https://epiotrkow.pl/news/x,1" 0 = .error "timeout" ∧
    env7.net "https://epiotrkow.pl/news/x,1" 1 = .ok page7 ∧
    fetch_article_details env7 "https://epiotrkow.pl/news/x,1" = .ok (none, none) :=
  ⟨rfl, rfl, c7_single_attempt env7 "https://epiotrkow.pl/news/x,1" "timeout" rfl⟩

/-! ## Claim C4 -/

/-- Claim C4: an item without a recovered publication date is rendered
with the feed-build timestamp as its `pubDate`, and that date text is
never empty. -/
theorem c4_default_pubdate (bd : DateTime) (it : Item) (h : it.pubDate = none) :
    item_xml bd it = item_xml_head it ++ to_rfc2822 bd ++ item_xml_tail it ∧
    (to_rfc2822 bd).length ≠ 0 := by
  constructor
  · unfold item_xml item_pubdate
    rw [h]
    rfl
  · unfold to_rfc2822
    simp only [String.length_append]
    rw [show (", ").length = 2 from rfl]
    omega

def bdC4 : DateTime := ⟨2024, 5, 1, 10, 0, 0⟩

def itC4 : Item := ⟨"T", "L", "G", none, none, none, none⟩

/-- Claim C4, witness: a concrete dateless item renders with the build
timestamp. -/
theorem c4_witness :
    item_xml bdC4 itC4 = item_xml_head itC4 ++ to_rfc2822 bdC4 ++ item_xml_tail itC4 ∧
    (to_rfc2822 bdC4).length ≠ 0 :=
  c4_default_pubdate bdC4 itC4 rfl

/-! ## Claim C9 -/

def anchor9 : Anchor := ⟨some "/news/ab-cd,7", none, none, "", none, none⟩

/-- Claim C9, counterexample: an anchor with no recoverable title resolves
to the constant placeholder `"Bez tytułu"`, not to a slug derived from the
URL path as the claim states. -/
theorem c9_counterexample :
    resolve_title anchor9 = "Bez tytułu" ∧
    resolve_title anchor9 ≠ spec_slug_title "/news/ab-cd,7" := by
  refine ⟨rfl, ?_⟩
  decide

/-- Claim C9 (amended): the resolved title is always non-empty; the final
fallback is the constant `"Bez tytułu"`, not a URL-derived slug. -/
theorem title_or_default_ne (t : String) : title_or_default t ≠ "" := by
  unfold title_or_default
  split
  · decide
  · assumption

theorem c9_title_nonempty (a : Anchor) : resolve_title a ≠ "" :=
  title_or_default_ne _

/-! ## Claim C1 -/

/-- A date taken by a higher-priority stage survives the AMP loop: every
AMP-side assignment is guarded by `if not pub_rfc`. -/
theorem ampLoop_pub (env : Env) (us : List String)
    (st : Option DateTime × Option String) (d : DateTime) (h : st.1 = some d) :
    (ampLoop env us st).1 = some d := by
  induction us generalizing st with
  | nil => simpa [ampLoop] using h
  | cons u rest ih =>
    unfold ampLoop
    split
    · exact h
    · cases hf : env.fetch u with
      | error e => exact ih st h
      | ok soup =>
        apply ih
        simp [h]

/-- A lead at or above the quality gate survives the AMP loop: the
AMP-side assignment is guarded by `not lead or len(lead) < LEAD_MIN_GOOD`. -/
theorem ampLoop_lead (env : Env) (us : List String)
    (st : Option DateTime × Option String) (l : String) (h : st.2 = some l)
    (hlen : LEAD_MIN_GOOD ≤ l.length) :
    (ampLoop env us st).2 = some l := by
  have hbg : leadBelowGood (some l) = false := by
    simp only [leadBelowGood, decide_eq_false_iff_not]
    omega
  induction us generalizing st with
  | nil => simpa [ampLoop] using h
  | cons u rest ih =>
    unfold ampLoop
    split
    · exact h
    · cases hf : env.fetch u with
      | error e => exact ih st h
      | ok soup =>
        apply ih
        simp [h, hbg]

theorem stage_date_some (env : Env) (soup : Page) (d : DateTime) :
    stage_date_fallbacks env soup (some d) = some d := by
  simp [stage_date_fallbacks]

theorem stage_lead_good (soup : Page) (l : String) (hlen : LEAD_MIN_GOOD ≤ l.length) :
    stage_lead_paras soup (some l) = some l := by
  have hbg : leadBelowGood (some l) = false := by
    simp only [leadBelowGood, decide_eq_false_iff_not]
    omega
  simp [stage_lead_paras, hbg]

/-- The gallery stage only fills a still-unset date. -/
theorem stage_gallery_pub (env : Env) (url : String) (d : DateTime)
    (lead : Option String) : (stage_gallery env url (some d) lead).1 = some d := by
  unfold stage_gallery
  split
  · cases htg : try_gallery_variant url with
    | none => rfl
    | some gal =>
      dsimp only
      cases hfe : env.fetch gal with
      | error e => rfl
      | ok g => simp
  · rfl

/-- The gallery stage is skipped entirely once the lead clears the gate. -/
theorem stage_gallery_skip (env : Env) (url : String) (pub : Option DateTime)
    (l : String) (hlen : LEAD_MIN_GOOD ≤ l.length) :
    stage_gallery env url pub (some l) = (pub, some l) := by
  have hbg : leadBelowGood (some l) = false := by
    simp only [leadBelowGood, decide_eq_false_iff_not]
    omega
  simp [stage_gallery, hbg]

theorem stage_traf_good (env : Env) (url : String) (l : String)
    (hlen : LEAD_MIN_GOOD ≤ l.length) :
    stage_traf env url (some l) = some l := by
  have hbg : leadBelowGood (some l) = false := by
    simp only [leadBelowGood, decide_eq_false_iff_not]
    omega
  simp [stage_traf, hbg]

/-- Cleanup keeps any whitespace-normal lead that clears the gate. -/
theorem stage_cleanup_keep (l : String) (hc : collapse_ws l = l)
    (hlen : LEAD_MIN_GOOD ≤ l.length) :
    stage_cleanup (some l) = some l := by
  have h80 : ¬ l.length < 80 := by
    have : (250 : Nat) ≤ l.length := hlen
    omega
  simp [stage_cleanup, hc, h80]

/-- Claim C1: the cascade never overwrites an already-accepted field.
If the structured-data (JSON-LD) stage of the fetched page yields a date,
that exact date is returned — every later stage (AMP, the meta-tag chain
with a possibly conflicting date, the visible-text scan, the gallery) is
date-guarded by `if not pub_rfc`.  If the structured-data stage yields a
(whitespace-normal) lead that already clears the 250-character quality
gate, that exact lead is returned — later stages may replace a lead only
while it is absent or below the gate. -/
theorem c1_cascade_no_overwrite (env : Env) (url : String) (page : Page)
    (hf : env.fetch url = .ok page) :
    (∀ d, (extract_from_jsonld env.localOff page.jsonld).1 = some d →
       ∃ l, fetch_article_details env url = .ok (some d, l)) ∧
    (∀ l, (extract_from_jsonld env.localOff page.jsonld).2 = some l →
       LEAD_MIN_GOOD ≤ l.length → collapse_ws l = l →
       ∃ p, fetch_article_details env url = .ok (p, some l)) := by
  have hfad : fetch_article_details env url = .ok (fad_core env url page) := by
    unfold fetch_article_details
    rw [hf]
  constructor
  · intro d hd
    have hs1 : (fad_after_amp env url page).1 = some d :=
      ampLoop_pub env (amp_candidates url page) _ d hd
    have h1 : (fad_core env url page).1 = some d := by
      show (stage_gallery env url
          (stage_date_fallbacks env page (fad_after_amp env url page).1)
          (stage_lead_paras page (fad_after_amp env url page).2)).1 = some d
      rw [hs1, stage_date_some]
      exact stage_gallery_pub env url d _
    refine ⟨(fad_core env url page).2, ?_⟩
    rw [hfad, ← h1]
  · intro l hl hlen hc
    have hs2 : (fad_after_amp env url page).2 = some l :=
      ampLoop_lead env (amp_candidates url page) _ l hl hlen
    have h2 : (fad_core env url page).2 = some l := by
      show stage_cleanup (stage_traf env url
          (stage_gallery env url
            (stage_date_fallbacks env page (fad_after_amp env url page).1)
            (stage_lead_paras page (fad_after_amp env url page).2)).2) = some l
      rw [hs2, stage_lead_good page l hlen,
        stage_gallery_skip env url _ l hlen]
      show stage_cleanup (stage_traf env url (some l)) = some l
      rw [stage_traf_good env url l hlen, stage_cleanup_keep l hc hlen]
    refine ⟨(fad_core env url page).1, ?_⟩
    rw [hfad, ← h2]

def artUrlC1 : String := "https://epiotrkow.pl/news/x,1"

def jleadC1 : String := String.mk (List.replicate 50 'b')

def paraC1 : String := String.mk (List.replicate 400 'a')

/-- A page carrying a structured-data date, a conflicting meta-tag date,
a 50-character structured-data lead, and a 400-character in-page
paragraph. -/
def pageC1 : Page :=
  ⟨[some (.obj [("@type", .str "NewsArticle"),
      ("datePublished", .str "2024-05-01T10:00:00"),
      ("description", .str jleadC1)])],
   none, [some "2023-01-01T00:00:00"], none, none, [[paraC1]], [], []⟩

def envC1 : Env :=
  ⟨0, fun u k => if u = artUrlC1 ∧ k = 0 then .ok pageC1 else .error "blocked",
   fun _ => none⟩

def dtC1 : DateTime := ⟨2024, 5, 1, 10, 0, 0⟩

/-- Claim C1, witness: on `pageC1` the structured-data date wins over the
conflicting meta-tag date, while the 50-character structured-data lead
(below the 250-character gate) is replaced by the 400-character in-page
paragraph lead. -/
theorem c1_witness :
    envC1.fetch artUrlC1 = .ok pageC1 ∧
    (extract_from_jsonld envC1.localOff pageC1.jsonld).1 = some dtC1 ∧
    (extract_from_jsonld envC1.localOff pageC1.jsonld).2 = some jleadC1 ∧
    (∃ l, fetch_article_details envC1 artUrlC1 = .ok (some dtC1, l)) ∧
    fetch_article_details envC1 artUrlC1 = .ok (some dtC1, some paraC1) := by
  refine ⟨rfl, by decide, by decide, ?_, by rfl⟩
  exact (c1_cascade_no_overwrite envC1 artUrlC1 pageC1 rfl).1 dtC1 (by decide)

/-! ## Claim C3 -/

theorem length_dropWhile_le (p : Char → Bool) (l : List Char) :
    (l.dropWhile p).length ≤ l.length := by
  induction l with
  | nil => simp
  | cons c t ih =>
    rw [List.dropWhile_cons]
    split
    · exact Nat.le_trans ih (Nat.le_succ _)
    · exact Nat.le_refl _

theorem rstripChars_length_le (l : List Char) : (rstripChars l).length ≤ l.length := by
  unfold rstripChars
  rw [List.length_reverse]
  calc (l.reverse.dropWhile isWsChar).length
      ≤ l.reverse.length := length_dropWhile_le _ _
    _ = l.length := List.length_reverse l

theorem dropWhile_ne_space (l : List Char) (h : ' ' ∈ l) :
    ∃ r, l.dropWhile (fun c => c ≠ ' ') = ' ' :: r := by
  induction l with
  | nil => simp at h
  | cons c t ih =>
    by_cases hc : c = ' '
    · subst hc
      exact ⟨t, by simp [List.dropWhile_cons]⟩
    · have ht : ' ' ∈ t := by
        rcases List.mem_cons.mp h with h1 | h1
        · exact absurd h1.symm hc
        · exact h1
      obtain ⟨r, hr⟩ := ih ht
      refine ⟨r, ?_⟩
      rw [List.dropWhile_cons, if_pos (by simp [hc]), hr]

/-- `cut.rsplit(" ", 1)[0]` splits off everything after the last space:
the prefix kept is `beforeLastSpaceChars cut`, the dropped tail contains
no further space. -/
theorem beforeLastSpace_split (cs : List Char) (h : ' ' ∈ cs) :
    ∃ w, cs = beforeLastSpaceChars cs ++ ' ' :: w ∧ ' ' ∉ w := by
  have hrev : ' ' ∈ cs.reverse := List.mem_reverse.mpr h
  obtain ⟨r, hr⟩ := dropWhile_ne_space cs.reverse hrev
  have htw : cs.reverse.takeWhile (fun c => c ≠ ' ') ++ (' ' :: r) = cs.reverse := by
    rw [← hr]
    exact List.takeWhile_append_dropWhile _ _
  have hb : beforeLastSpaceChars cs = r.reverse := by
    unfold beforeLastSpaceChars
    rw [hr]
    simp
  refine ⟨(cs.reverse.takeWhile (fun c => c ≠ ' ')).reverse, ?_, ?_⟩
  · rw [hb]
    have hcs := congrArg List.reverse htw
    simpa [List.reverse_append] using hcs.symm
  · intro hw
    have hmem : ' ' ∈ cs.reverse.takeWhile (fun c => c ≠ ' ') := List.mem_reverse.mp hw
    have := List.mem_takeWhile_imp hmem
    simp at this

/-- The behaviour of the shared truncation idiom: output no longer than
`m + 1` characters; once the input exceeds the budget the output is a
right-stripped prefix followed by the ellipsis, and when the prefix
contained a space the cut happens at the last word boundary (the dropped
tail is exactly the partial last word). -/
theorem truncate_spec (s : String) (m : Nat) :
    (truncate_with_ellipsis s m).length ≤ m + 1 ∧
    (m < s.length →
      (truncate_with_ellipsis s m).data.getLast? = some '…' ∧
      ∃ c : List Char, c.length ≤ m ∧
        truncate_with_ellipsis s m = String.mk (rstripChars c) ++ "…" ∧
        ((' ' ∉ s.data.take m ∧ c = s.data.take m) ∨
         (∃ w, s.data.take m = c ++ ' ' :: w ∧ ' ' ∉ w))) := by
  by_cases hm : m < s.length
  · have hval : truncate_with_ellipsis s m =
        String.mk (rstripChars
          (if ' ' ∈ s.data.take m then beforeLastSpaceChars (s.data.take m)
           else s.data.take m)) ++ "…" := by
      unfold truncate_with_ellipsis
      rw [if_pos hm]
    have hred : ∃ c : List Char, c.length ≤ m ∧
        truncate_with_ellipsis s m = String.mk (rstripChars c) ++ "…" ∧
        ((' ' ∉ s.data.take m ∧ c = s.data.take m) ∨
         (∃ w, s.data.take m = c ++ ' ' :: w ∧ ' ' ∉ w)) := by
      by_cases hsp : ' ' ∈ s.data.take m
      · rw [if_pos hsp] at hval
        obtain ⟨w, hw, hwn⟩ := beforeLastSpace_split (s.data.take m) hsp
        refine ⟨beforeLastSpaceChars (s.data.take m), ?_, hval, Or.inr ⟨w, hw, hwn⟩⟩
        have hlen := congrArg List.length hw
        rw [List.length_append, List.length_cons] at hlen
        have htk := List.length_take_le m s.data
        omega
      · rw [if_neg hsp] at hval
        exact ⟨s.data.take m, List.length_take_le m s.data, hval, Or.inl ⟨hsp, rfl⟩⟩
    obtain ⟨c, hcl, heq, hcase⟩ := hred
    refine ⟨?_, fun _ => ⟨?_, c, hcl, heq, hcase⟩⟩
    · rw [heq]
      have h1 : (rstripChars c).length ≤ m := Nat.le_trans (rstripChars_length_le c) hcl
      have h2 : (String.mk (rstripChars c) ++ "…").length =
          (rstripChars c).length + 1 := by
        rw [String.length_append]
        rfl
      omega
    · rw [heq]
      have : (String.mk (rstripChars c) ++ "…").data = rstripChars c ++ ['…'] := rfl
      rw [this]
      exact List.getLast?_concat _
  · unfold truncate_with_ellipsis
    rw [if_neg hm]
    refine ⟨?_, fun hlt => absurd hlt hm⟩
    omega

/-- Claim C3 (amended): a lead built by the in-page paragraph scan
(`build_lead_from_paras`) is at most `budget + 1` characters; when the
accumulated text exceeded the budget it ends in the ellipsis marker and is
cut at a word boundary (no partial word is kept).  The structured-data
(JSON-LD) strategy, by contrast, does not truncate (see the
counterexample). -/
theorem c3_lead_truncation (p : Page) (m : Nat) (l : String)
    (h : build_lead_from_paras p m = some l) :
    l.length ≤ m + 1 ∧
    (m < (lead_raw p m).length →
      l.data.getLast? = some '…' ∧
      ∃ c : List Char, c.length ≤ m ∧
        l = String.mk (rstripChars c) ++ "…" ∧
        ((' ' ∉ (lead_raw p m).data.take m ∧ c = (lead_raw p m).data.take m) ∨
         (∃ w, (lead_raw p m).data.take m = c ++ ' ' :: w ∧ ' ' ∉ w))) := by
  unfold build_lead_from_paras at h
  split at h
  · exact absurd h (by simp)
  · have hl : l = truncate_with_ellipsis (lead_raw p m) m := (Option.some.inj h).symm
    subst hl
    exact truncate_spec (lead_raw p m) m

/-- The claim's 2000-character-lead scenario, scaled to the in-page scan:
one long paragraph and a 500-character budget. -/
def pageC3 : Page :=
  ⟨[], none, [], none, none,
   [[String.mk (List.replicate 300 'a') ++ " " ++ String.mk (List.replicate 300 'b')]],
   [], []⟩

def leadC3 : String := String.mk (List.replicate 300 'a') ++ "…"

/-- Claim C3, witness for the amended statement: a 601-character paragraph
against budget 500 yields a 301-character lead, ending in the ellipsis,
cut at the word boundary. -/
theorem c3_witness :
    build_lead_from_paras pageC3 500 = some leadC3 ∧
    leadC3.length ≤ 501 ∧
    leadC3.data.getLast? = some '…' := by
  have h : build_lead_from_paras pageC3 500 = some leadC3 := by decide
  have hlt : 500 < (lead_raw pageC3 500).length := by decide
  exact ⟨h, (c3_lead_truncation pageC3 500 leadC3 h).1,
    ((c3_lead_truncation pageC3 500 leadC3 h).2 hlt).1⟩

def longLeadC3 : String := String.mk (List.replicate 1010 'a')

def objC3 : Json :=
  .obj [("@type", .str "NewsArticle"), ("articleBody", .str longLeadC3)]

/-- Claim C3, counterexample: the structured-data (JSON-LD) strategy
returns its description/body untruncated — a 1010-character article body
becomes a 1010-character lead, exceeding the 1000-character budget plus
ellipsis, and without any ellipsis marker. -/
theorem c3_counterexample :
    (extract_from_jsonld 0 [some objC3]).2 = some longLeadC3 ∧
    LEAD_MAX_CHARS + 1 < longLeadC3.length ∧
    longLeadC3.data.getLast? ≠ some '…' := by
  refine ⟨by decide, by decide, by decide⟩

/-! ## Claim C5 -/

/-- The hrefs kept by the dedup loop are pairwise distinct and disjoint
from the already-seen set. -/
theorem dedup_hrefs_spec (l : List Anchor) (seen : List String) :
    ((dedup_hrefs l seen).filterMap (fun a => a.href)).Nodup ∧
    ∀ h ∈ (dedup_hrefs l seen).filterMap (fun a => a.href), h ∉ seen := by
  induction l generalizing seen with
  | nil => exact ⟨List.nodup_nil, by intro h hm; simp [dedup_hrefs] at hm⟩
  | cons a rest ih =>
    cases ha : a.href with
    | none =>
      have : dedup_hrefs (a :: rest) seen = dedup_hrefs rest seen := by
        simp [dedup_hrefs, ha]
      rw [this]
      exact ih seen
    | some h =>
      by_cases hskip : h = "" ∨ h ∈ seen
      · have : dedup_hrefs (a :: rest) seen = dedup_hrefs rest seen := by
          simp only [dedup_hrefs, ha, if_pos hskip]
        rw [this]
        exact ih seen
      · have hred : dedup_hrefs (a :: rest) seen = a :: dedup_hrefs rest (h :: seen) := by
          simp only [dedup_hrefs, ha, if_neg hskip]
        have hfm : (dedup_hrefs (a :: rest) seen).filterMap (fun a => a.href) =
            h :: (dedup_hrefs rest (h :: seen)).filterMap (fun a => a.href) := by
          rw [hred]
          simp [List.filterMap_cons, ha]
        rw [hfm]
        obtain ⟨ihn, ihm⟩ := ih (h :: seen)
        push_neg at hskip
        refine ⟨List.nodup_cons.mpr ⟨fun hc => ?_, ihn⟩, ?_⟩
        · exact absurd (List.mem_cons_self h seen) (ihm h hc)
        · intro x hx
          rcases List.mem_cons.mp hx with hx | hx
          · subst hx; exact hskip.2
          · exact fun hxs => ihm x hx (List.mem_cons_of_mem _ hxs)

theorem extract_links_eq (anchors : List Anchor) :
    extract_links anchors =
      ((dedup_hrefs anchors []).filterMap (fun a => a.href)).filterMap
        (fun h => if idLinkMatch h then some (urljoin_site h) else none) := by
  unfold extract_links
  rw [List.filterMap_filterMap]
  congr 1
  funext a
  cases a.href <;> simp [Option.bind]

theorem urljoin_site_inj (h1 h2 : String) (h : urljoin_site h1 = urljoin_site h2) :
    h1 = h2 := by
  unfold urljoin_site at h
  have hd := congrArg String.data h
  simp only [String.data_append] at hd
  exact String.ext (List.append_cancel_left hd)

def strStartsWith (p s : String) : Bool := p.data.isPrefixOf s.data

/-- Claim C5: link extraction returns only absolute URLs built from hrefs
matching the article pattern `^/news/.+,\d+$` (so listing/category paths
such as `/news/` and `/news/wydarzenia-p2`, which lack the `,id` suffix,
are excluded), and the result is duplicate-free. -/
theorem c5_extract_links (anchors : List Anchor) :
    (∀ u ∈ extract_links anchors,
       ∃ h, idLinkMatch h = true ∧ u = urljoin_site h ∧ strStartsWith SITE u = true) ∧
    (extract_links anchors).Nodup ∧
    idLinkMatch "/news/" = false ∧
    idLinkMatch "/news/wydarzenia-p2" = false := by
  refine ⟨?_, ?_, by decide, by decide⟩
  · intro u hu
    unfold extract_links at hu
    obtain ⟨a, _, hfa⟩ := List.mem_filterMap.mp hu
    cases haf : a.href with
    | none => rw [haf] at hfa; simp at hfa
    | some h =>
      rw [haf] at hfa
      dsimp only at hfa
      by_cases hm : idLinkMatch h = true
      · rw [if_pos hm] at hfa
        refine ⟨h, hm, (Option.some.inj hfa).symm, ?_⟩
        have : u = SITE ++ h := (Option.some.inj hfa).symm
        subst this
        unfold strStartsWith
        simp only [String.data_append]
        exact List.isPrefixOf_iff_prefix.mpr (List.prefix_append _ _)
      · rw [if_neg hm] at hfa
        simp at hfa
  · rw [extract_links_eq]
    refine List.Nodup.filterMap ?_ (dedup_hrefs_spec anchors []).1
    intro h1 h2 u hu1 hu2
    by_cases hm1 : idLinkMatch h1 = true
    · by_cases hm2 : idLinkMatch h2 = true
      · rw [if_pos hm1] at hu1
        rw [if_pos hm2] at hu2
        have e1 : u = urljoin_site h1 := by simpa using hu1.symm
        have e2 : u = urljoin_site h2 := by simpa using hu2.symm
        exact urljoin_site_inj h1 h2 (e1 ▸ e2)
      · rw [if_neg hm2] at hu2; simp at hu2
    · rw [if_neg hm1] at hu1; simp at hu1

def anchorsC5 : List Anchor :=
  [⟨some "/news/a,100", some "A1", none, "A1", none, none⟩,
   ⟨some "/news/b,200", some "B1", none, "B1", none, none⟩,
   ⟨some "/news/a,100", some "A1bis", none, "A1bis", none, none⟩,
   ⟨some "/news/wydarzenia-p2", none, none, "więcej", none, none⟩]

/-- Claim C5, witness: a listing with anchors to `/news/a,100`,
`/news/b,200`, a duplicate `/news/a,100` and a category link yields
exactly the two distinct absolute article URLs in encounter order, and
re-running yields the identical ordered result. -/
theorem c5_witness :
    extract_links anchorsC5 =
      ["https://epiotrkow.pl/news/a,100", "https://epiotrkow.pl/news/b,200"] ∧
    (extract_links anchorsC5).Nodup ∧
    extract_links anchorsC5 = extract_links anchorsC5 ∧
    (∃ h, idLinkMatch h = true ∧
       "https://epiotrkow.pl/news/a,100" = urljoin_site h ∧
       strStartsWith SITE "https://epiotrkow.pl/news/a,100" = true) := by
  refine ⟨by decide, (c5_extract_links anchorsC5).2.1, rfl, ?_⟩
  exact (c5_extract_links anchorsC5).1 "https://epiotrkow.pl/news/a,100" (by decide)

/-! ## Claim C6 -/

/-- Claim C6: for every behaviour of the network and of the parsers
(arbitrary `Env`, including malformed structured data and unparseable
dates inside the `Page`s it serves), article extraction returns a value —
never an uncaught exception — and when even the base fetch fails the
record degrades to absent date and lead. -/
theorem c6_never_fails (env : Env) (url : String) :
    (∃ r, fetch_article_details env url = .ok r) ∧
    (∀ e, env.fetch url = .error e →
      fetch_article_details env url = .ok (none, none)) := by
  constructor
  · unfold fetch_article_details
    cases h : env.fetch url with
    | error e => exact ⟨(none, none), rfl⟩
    | ok soup => exact ⟨fad_core env url soup, rfl⟩
  · intro e he
    unfold fetch_article_details
    rw [he]

def envFail : Env := ⟨0, fun _ _ => .error "net down", fun _ => none⟩

/-- Claim C6, witness: under a totally failing network the extraction
still returns, with defaulted fields. -/
theorem c6_witness :
    (∃ r, fetch_article_details envFail "https://epiotrkow.pl/news/x,1" = .ok r) ∧
    fetch_article_details envFail "https://epiotrkow.pl/news/x,1" = .ok (none, none) :=
  ⟨(c6_never_fails envFail "https://epiotrkow.pl/news/x,1").1,
   (c6_never_fails envFail "https://epiotrkow.pl/news/x,1").2 "net down" rfl⟩

/-! ## Claim C2 -/

def itemOldC2 : Item :=
  ⟨"A", "https://epiotrkow.pl/news/a,100", "g1", none, none,
   some ⟨2024, 5, 1, 10, 0, 0⟩, none⟩

def itemNewC2 : Item :=
  ⟨"B", "https://epiotrkow.pl/news/b,200", "g2", none, none,
   some ⟨2024, 5, 2, 10, 0, 0⟩, none⟩

def bdC2 : DateTime := ⟨2024, 6, 1, 0, 0, 0⟩

/-- Claim C2, counterexample: the feed built from an older-first record
list differs from the feed built from its descending-date stable sort —
`build_rss` (and `fetch_items`, which feeds it) performs no sorting, so
the rendered feed is not ordered by publication date. -/
theorem c2_counterexample :
    spec_sort_by_date_desc bdC2 [itemOldC2, itemNewC2] = [itemNewC2, itemOldC2] ∧
    build_rss bdC2 [itemOldC2, itemNewC2] ≠
      build_rss bdC2 (spec_sort_by_date_desc bdC2 [itemOldC2, itemNewC2]) := by
  refine ⟨rfl, ?_⟩
  decide

/-- Claim C2 (amended): the rendered feed lists items in their given
(first-seen) order — the body is the in-order concatenation of the
per-item blocks, independent of the publication dates; in particular
equal-date items trivially keep their prior relative order, but no
descending-date sort is applied. -/
theorem c2_feed_in_input_order (bd : DateTime) (items : List Item) :
    build_rss bd items =
      rss_head bd ++ (items.map (item_xml bd)).foldr (· ++ ·) "" ++ rss_tail := by
  unfold build_rss
  congr 1
  congr 1
  induction items with
  | nil => rfl
  | cons it rest ih => simp [rss_body, ih]

end Scraper
